import Mathlib

/-!
Verification of the bittorrent-client orchestration layer.

JavaScript strings are embedded as `List Char` and byte buffers as
`List Nat`.  Collaborator modules that are not part of this repository
(magnet-uri, parse-torrent, run-parallel, lib/torrent) are modelled from
the spec, as noted in their doc comments.
-/

/-- JavaScript strings are modelled as lists of characters. -/
abbrev JStr := List Char

/-- Byte buffers are modelled as lists of naturals (each intended < 256). -/
abbrev Bytes := List Nat

/-- The sixteen lowercase hex digit characters, in order of value. -/
def hexChars : List Char := "0123456789abcdef".data

/-- The hex digit character for a nibble value. -/
def nibbleChar (n : Nat) : Char := hexChars.getD (n % 16) '0'

/-- The two hex characters encoding one byte (as in Buffer.toString with hex). -/
def byteToHexChars (b : Nat) : List Char := [nibbleChar (b / 16), nibbleChar b]

/-- Lowercase hex encoding of a byte buffer, as Buffer.toString with hex yields. -/
def bytesToHex (bs : Bytes) : JStr := (bs.map byteToHexChars).flatten

/-- A character is a hex digit (either case), as the magnet parser accepts. -/
def isHexDig (c : Char) : Bool :=
  c.isDigit || ('a' ≤ c && c ≤ 'f') || ('A' ≤ c && c ≤ 'F')

/-- The RFC 4648 base-32 alphabet used for 32-character info-hash strings. -/
def base32Chars : List Char := "ABCDEFGHIJKLMNOPQRSTUVWXYZ234567".data

/-- A character is a base-32 digit. -/
def isB32 (c : Char) : Bool := base32Chars.contains c

/-- The 5-bit value of a base-32 digit. -/
def b32Val (c : Char) : Nat := (base32Chars.indexOf c) % 32

/-- Decode a 32-character base-32 string into its 20 bytes. -/
def base32Decode (s : JStr) : Bytes :=
  let n := s.foldl (fun a c => a * 32 + b32Val c) 0
  (List.range 20).map (fun i => n / 256 ^ (19 - i) % 256)

/-- The magnet URI scheme, tested by the regular expression in toInfoHash. -/
def magnetScheme : JStr := "magnet:".data

/-- The magnet btih head prepended by toInfoHash to bare info-hash strings. -/
def btihHead : JStr := "magnet:?xt=urn:btih:".data

/-- Modelled from the spec: the magnet-uri collaborator (not part of this
repository) parses a magnet-style URI and extracts the content-identifier
parameter, decoding a 40-character hex value (lowercasing it) or a
32-character base-32 value into the canonical lowercase hex form; anything
else yields no info hash. -/
def magnetInfoHash (s : JStr) : Option JStr :=
  if btihHead.isPrefixOf s then
    let rest := (s.drop btihHead.length).takeWhile (fun c => c ≠ '&')
    if rest.length = 40 ∧ rest.all isHexDig then
      some (rest.map Char.toLower)
    else if rest.length = 32 ∧ rest.all isB32 then
      some (bytesToHex (base32Decode rest))
    else none
  else none

/-- The JavaScript values accepted by Client.toInfoHash: a string, a Buffer,
an object carrying an infoHash field (empty string standing for a falsy
field), or any other value. -/
inductive TorrentId where
  | str (s : JStr)
  | buf (b : Bytes)
  | parsed (infoHash : JStr)
  | other
  deriving DecidableEq

/-- Client.toInfoHash from part_001 lines 70-97 and part_002 lines 98-125.
`parseT` is the parse-torrent collaborator (not part of this repository),
modelled from the spec: it decodes torrent-metadata bytes and extracts the
canonical content identifier, or fails on malformed metadata. -/
def toInfoHash (parseT : Bytes → Option JStr) : TorrentId → Option JStr
  | .str s =>
      let s2 := if (¬ magnetScheme.isPrefixOf s ∧ s.length = 40) ∨ s.length = 32
                then btihHead ++ s else s
      magnetInfoHash s2
  | .buf b => if b.length = 20 then some (bytesToHex b) else parseT b
  | .parsed ih => if ih = [] then none else some ih
  | .other => none

/-- A registry entry: the torrent object constructed by the lib/torrent
collaborator.  Modelled from the spec: a TorrentEntry carries the resolved
ContentID, opaque per-call data (the options/swarm handle, abstracted as a
tag distinguishing separately constructed objects), and upload/download
byte counters. -/
structure Torrent where
  infoHash : JStr
  tag : Nat
  uploaded : ℚ
  downloaded : ℚ
  deriving DecidableEq

/-- The client of part_001: its state relevant to the registry operations
is the ordered torrents array. -/
structure Client1 where
  torrents : List Torrent
  deriving DecidableEq

/-- Client.prototype.get from part_001 lines 125-135: resolve the
identifier with Client.toInfoHash, then return the first torrent in the
array whose infoHash strictly equals the resolved hash (a null resolution
matches no entry). -/
def get1 (parseT : Bytes → Option JStr) (c : Client1) (id : TorrentId) : Option Torrent :=
  c.torrents.find? (fun t => some t.infoHash = toInfoHash parseT id)

/-- Client.prototype.add from part_001 lines 149-183: construct a Torrent
from the identifier and push it onto the array, with no lookup for an
existing entry.  The lib/torrent collaborator is modelled from the spec:
it resolves the identifier to its ContentID, and a malformed identifier is
a ValidationError returned to the caller. -/
def add1 (parseT : Bytes → Option JStr) (c : Client1) (id : TorrentId) (tag : Nat) :
    Except Unit Client1 :=
  match toInfoHash parseT id with
  | some ih => .ok ⟨c.torrents ++ [⟨ih, tag, 0, 0⟩]⟩
  | none => .error ()

/-- The error thrown by Client.prototype.remove for an unknown id. -/
inductive RemErr where
  | notFound
  deriving DecidableEq

/-- Client.prototype.remove from part_001 lines 191-198: look the torrent
up; if absent, throw (the state is returned untouched together with the
propagated error); if present, splice it out at its first index and hand
it to the collaborator teardown. -/
def remove1 (parseT : Bytes → Option JStr) (c : Client1) (id : TorrentId) :
    Client1 × Option RemErr :=
  match get1 parseT c id with
  | none => (c, some .notFound)
  | some t => (⟨(c.torrents.eraseIdx (c.torrents.indexOf t))⟩, none)

/-- The uploaded total computed by the ratio getter's first reduce. -/
def uploadedTotal (ts : List Torrent) : ℚ :=
  ts.foldl (fun total t => total + t.uploaded) 0

/-- The downloaded total computed by the ratio getter's second reduce. -/
def downloadedTotal (ts : List Torrent) : ℚ :=
  ts.foldl (fun total t => total + t.downloaded) 0

/-- The ratio getter (part_002 lines 131-145, identical in all revisions):
0 when the downloaded total is 0, uploaded/downloaded otherwise. -/
def ratio (ts : List Torrent) : ℚ :=
  if downloadedTotal ts = 0 then 0 else uploadedTotal ts / downloadedTotal ts

/-- The client of part_002: the readiness flag, the queue of add calls
registered as once-listeners on the ready event, and the torrents array
(each entry standing for the Torrent object constructed from the queued
identifier). -/
structure Client2 where
  ready : Bool
  pendingAdds : List TorrentId
  torrents : List TorrentId
  deriving DecidableEq

/-- Client.prototype.add from part_002 lines 177-242: while the client is
not ready the call re-registers itself as a once-listener on the ready
event (appended to the listener queue); once ready it constructs the
Torrent synchronously and pushes it onto the torrents array. -/
def add2 (c : Client2) (id : TorrentId) : Client2 :=
  if c.ready then { c with torrents := c.torrents ++ [id] }
  else { c with pendingAdds := c.pendingAdds ++ [id] }

/-- The bootstrap completion callback of part_002 lines 83-88 in the
success case: set ready, then emit the ready event, which replays the
queued once-listeners in registration order; each replayed add now runs
against a ready client. -/
def becomeReady (c : Client2) : Client2 :=
  c.pendingAdds.foldl add2 { c with ready := true, pendingAdds := [] }

/-- The bootstrap tasks assembled by the part_002 constructor. -/
inductive BootTask where
  | portTask
  | dhtTask
  deriving DecidableEq

/-- The task list of part_002 lines 56-81: a port-acquisition task unless
a fixed torrentPort was supplied, then a DHT bring-up task if DHT is
enabled. -/
def bootTasks (torrentPortSet : Bool) (dhtEnabled : Bool) : List BootTask :=
  (if torrentPortSet then [] else [.portTask]) ++ (if dhtEnabled then [.dhtTask] else [])

/-- Modelled from the spec: the run-parallel collaborator (not part of
this repository) is the concurrent task-group primitive — spawn all
tasks, join on their collective completion, and collect the first error.
Given the per-task outcomes, the first error among them. -/
def firstErr {E : Type} (results : List (Option E)) : Option E :=
  results.findSome? (fun o => o)

/-- Client-level observable events during bootstrap: completion of one
bootstrap task, the fatal error event, the ready event. -/
inductive ClientEvent (E : Type) where
  | taskDone
  | errorEvt (e : E)
  | readyEvt
  deriving DecidableEq

/-- The bootstrap trace of the part_002 constructor (lines 56-89), with
the task-group join modelled from the spec: every task runs to
completion, and after all have finished the aggregate callback fires,
emitting a fatal error (the first task error) when any task failed, and
otherwise setting ready and emitting the ready event. -/
def bootTrace {E : Type} (results : List (Option E)) : List (ClientEvent E) :=
  (results.map fun _ => .taskDone) ++
    (match firstErr results with
     | some e => [.errorEvt e]
     | none => [.readyEvt])

/-- Whether the part_002 client reaches the ready state for the given
bootstrap task outcomes. -/
def bootReadyFlag {E : Type} (results : List (Option E)) : Bool :=
  match firstErr results with
  | some _ => false
  | none => true

/-- One teardown task handed to the task group by destroy. -/
inductive Teardown where
  | torrentTask (infoHash : JStr)
  | dhtTask
  deriving DecidableEq

/-- The client of part_000, as destroy sees it: the torrents array and
whether the client holds a DHT it constructed (self.dht is truthy). -/
structure Client0 where
  torrents : List Torrent
  dht : Bool
  deriving DecidableEq

/-- Client.prototype.destroy from part_000 lines 168-183: one removal
task per registered torrent, plus a DHT-destroy task when the client has
a DHT, all handed to the task group. -/
def destroyTasks0 (c : Client0) : List Teardown :=
  c.torrents.map (fun t => .torrentTask t.infoHash) ++ (if c.dht then [.dhtTask] else [])

/-- What Client.prototype.destroy of part_002 lines 263-275 does: the DHT
is destroyed synchronously, outside the task group and with no callback,
and only the per-torrent removal tasks are handed to the task group. -/
structure DestroyPlan where
  syncDhtDestroy : Bool
  tasks : List Teardown
  deriving DecidableEq

/-- Client.prototype.destroy from part_002 lines 263-275 (the torrents
array and DHT presence are passed as a Client0-shaped view of the
state). -/
def destroy2 (c : Client0) : DestroyPlan :=
  { syncDhtDestroy := c.dht
  , tasks := c.torrents.map (fun t => .torrentTask t.infoHash) }

/-- Events observable while the task group of a destroy call runs, for a
given completion order of the task outcomes: each task finishing, then
the aggregate callback with the first error encountered. -/
inductive JoinEvent (E : Type) where
  | taskDone (o : Option E)
  | aggregate (first : Option E)
  deriving DecidableEq

/-- Modelled from the spec: the trace of the task-group join for a given
completion order of task outcomes — all tasks run to completion
regardless of individual failures, and the aggregate callback fires once,
after the last completion, reporting the first error encountered. -/
def joinTrace {E : Type} (order : List (Option E)) : List (JoinEvent E) :=
  order.map .taskDone ++ [.aggregate (firstErr order)]

/-- The JavaScript value held in a PeerDiscovery peerId option: a string
or a Buffer (a Buffer is truthy even when empty; a string is falsy when
empty). -/
inductive PeerIdVal where
  | str (s : JStr)
  | buf (b : Bytes)
  deriving DecidableEq

/-- JavaScript truthiness of an optional peerId value. -/
def peerIdTruthy : Option PeerIdVal → Bool
  | none => false
  | some (.str s) => !s.isEmpty
  | some (.buf _) => true

/-- The JavaScript value held in the dht field of a PeerDiscovery: the
boolean defaults, an explicitly supplied nullish value, an externally
constructed DHT handle, or the handle _createDHT constructed itself. -/
inductive DhtField where
  | fls
  | tru
  | nullish
  | extHandle
  | ownHandle
  deriving DecidableEq

/-- JavaScript truthiness of the dht field. -/
def dhtTruthy : DhtField → Bool
  | .fls => false
  | .nullish => false
  | .tru => true
  | .extHandle => true
  | .ownHandle => true

/-- The JavaScript value held in the tracker field: the boolean options or
the tracker client constructed by _createTracker. -/
inductive TrackerField where
  | fls
  | tru
  | client
  deriving DecidableEq

/-- The PeerDiscovery state observed by the claims: the dht and tracker
fields, the externalDHT flag, how many peer listeners were attached to
the dht handle, how many times destroy was invoked on the dht handle, and
how many times stop was invoked on the tracker client. -/
structure PD where
  dht : DhtField
  externalDHT : Bool
  tracker : TrackerField
  dhtPeerListeners : Nat
  dhtDestroyCalls : Nat
  trackerStopCalls : Nat
  deriving DecidableEq

/-- PeerDiscovery.prototype._createDHT, peer-discovery.js lines 48-59: a
dht field strictly equal to false returns at once; a truthy field marks
the DHT external; otherwise (a nullish field) a DHT is constructed and
started listening; finally a peer listener is attached to the field —
which is a TypeError (none) when the field is the boolean true. -/
def createDHT (s : PD) : Option PD :=
  if s.dht = .fls then some s
  else
    let s1 := if dhtTruthy s.dht then { s with externalDHT := true }
              else { s with dht := .ownHandle }
    match s1.dht with
    | .tru => none
    | .fls => none
    | .nullish => none
    | _ => some { s1 with dhtPeerListeners := s1.dhtPeerListeners + 1 }

/-- PeerDiscovery.prototype._createTracker, peer-discovery.js lines
61-77: a tracker field strictly equal to false returns at once;
otherwise a tracker client is constructed (with peer and error listeners)
and started. -/
def createTracker (s : PD) : PD :=
  if s.tracker = .fls then s
  else { s with tracker := .client }

/-- The tracker-wiring branch of PeerDiscovery.prototype.setTorrent,
peer-discovery.js lines 90-96: a truthy non-boolean tracker field has its
torrentLength updated in place; otherwise _createTracker runs. -/
def setTorrentTracker (s : PD) : PD :=
  if s.tracker ≠ .fls ∧ s.tracker ≠ .tru then s
  else createTracker s

/-- PeerDiscovery.prototype.stop, peer-discovery.js lines 104-108: a
truthy tracker field has stop invoked on it — a TypeError (none) when the
field is still the boolean true — then the dht handle is destroyed when
the dht field is truthy and the DHT is not external. -/
def pdStop (s : PD) : Option PD :=
  match (match s.tracker with
         | .fls => some s
         | .tru => none
         | .client => some { s with trackerStopCalls := s.trackerStopCalls + 1 }) with
  | none => none
  | some s1 =>
      if dhtTruthy s1.dht ∧ ¬ s1.externalDHT
      then some { s1 with dhtDestroyCalls := s1.dhtDestroyCalls + 1 }
      else some s1

/-- The options given to the PeerDiscovery constructor that the claims
depend on. -/
structure PDOpts where
  peerId : Option PeerIdVal
  dht : DhtField
  tracker : TrackerField
  deriving DecidableEq

/-- The ways the PeerDiscovery constructor can throw. -/
inductive PDErr where
  | peerIdRequired
  | typeError
  deriving DecidableEq

/-- A resource created during construction. -/
inductive PDResource where
  | ownDht
  | trackerClient
  deriving DecidableEq

/-- The resources a PD state holds. -/
def pdResources (s : PD) : List PDResource :=
  (if s.dht = .ownHandle then [.ownDht] else []) ++
    (if s.tracker = .client then [.trackerClient] else [])

/-- The PeerDiscovery constructor, peer-discovery.js lines 12-29: merge
the defaults with the options, throw when the peerId is falsy, then run
_createDHT.  The result is the list of resources created together with
the outcome, so that a throw is visibly prior to any resource creation. -/
def pdInit (o : PDOpts) : List PDResource × Except PDErr PD :=
  let s0 : PD :=
    { dht := o.dht, externalDHT := false, tracker := o.tracker
    , dhtPeerListeners := 0, dhtDestroyCalls := 0, trackerStopCalls := 0 }
  if ¬ peerIdTruthy o.peerId then ([], .error .peerIdRequired)
  else
    match createDHT s0 with
    | none => ([], .error .typeError)
    | some s => (pdResources s, .ok s)

/-- A peer-source event arriving at a PeerDiscovery: a peer from the
tracker client, an error from the tracker client, a peer from the DHT. -/
inductive SrcEvent where
  | trackerPeer (addr : JStr)
  | trackerErr (e : Nat)
  | dhtPeer (addr : JStr)
  deriving DecidableEq

/-- An event emitted by a PeerDiscovery to its observers. -/
inductive OutEvent where
  | peer (addr : JStr)
  | warning (e : Nat)
  | fatal (e : Nat)
  deriving DecidableEq

/-- Which listeners a PeerDiscovery has attached: a peer listener on the
dht handle (_createDHT line 58) and peer plus error listeners on the
tracker client (_createTracker lines 71-75). -/
structure PDWiring where
  dhtAttached : Bool
  trackerAttached : Bool
  deriving DecidableEq

/-- The events a PeerDiscovery emits on one source event: tracker and DHT
peers are forwarded by _onPeer (lines 31-34), and every tracker error is
emitted as a non-fatal warning (lines 72-75). -/
def dispatch (w : PDWiring) : SrcEvent → List OutEvent
  | .trackerPeer a => if w.trackerAttached then [.peer a] else []
  | .trackerErr e => if w.trackerAttached then [.warning e] else []
  | .dhtPeer a => if w.dhtAttached then [.peer a] else []

/-- The events a PeerDiscovery emits over a sequence of source events. -/
def emittedEvents (w : PDWiring) (es : List SrcEvent) : List OutEvent :=
  (es.map (dispatch w)).flatten

deriving instance DecidableEq for Except

section HelperLemmas

lemma foldl_add_eq_sum (f : Torrent → ℚ) (ts : List Torrent) (init : ℚ) :
    ts.foldl (fun total t => total + f t) init = init + (ts.map f).sum := by
  induction ts generalizing init with
  | nil => simp
  | cons t ts ih => simp [ih, add_assoc]

lemma uploadedTotal_eq_sum (ts : List Torrent) :
    uploadedTotal ts = (ts.map (fun t => t.uploaded)).sum := by
  simp [uploadedTotal, foldl_add_eq_sum]

lemma downloadedTotal_eq_sum (ts : List Torrent) :
    downloadedTotal ts = (ts.map (fun t => t.downloaded)).sum := by
  simp [downloadedTotal, foldl_add_eq_sum]

lemma foldl_add2_notReady (rs : List TorrentId) (p t : List TorrentId) :
    rs.foldl add2 ⟨false, p, t⟩ = ⟨false, p ++ rs, t⟩ := by
  induction rs generalizing p with
  | nil => simp
  | cons r rs ih => simpa [add2] using ih (p ++ [r])

lemma foldl_add2_ready (rs : List TorrentId) (p t : List TorrentId) :
    rs.foldl add2 ⟨true, p, t⟩ = ⟨true, p, t ++ rs⟩ := by
  induction rs generalizing t with
  | nil => simp
  | cons r rs ih => simpa [add2] using ih (t ++ [r])

end HelperLemmas

/-- C8: the client's ratio is the quotient of the uploaded and downloaded
byte totals over all registered torrents, 0 when the downloaded total is
0; on uploaded 0,100,50 and downloaded 0,200,0 it is 0.75. -/
theorem c8_ratio_policy (ts : List Torrent) :
    uploadedTotal ts = (ts.map (fun t => t.uploaded)).sum ∧
    downloadedTotal ts = (ts.map (fun t => t.downloaded)).sum ∧
    (downloadedTotal ts = 0 → ratio ts = 0) ∧
    (downloadedTotal ts ≠ 0 → ratio ts = uploadedTotal ts / downloadedTotal ts) ∧
    ratio [⟨[], 0, 0, 0⟩, ⟨[], 1, 100, 200⟩, ⟨[], 2, 50, 0⟩] = 3 / 4 := by
  refine ⟨uploadedTotal_eq_sum ts, downloadedTotal_eq_sum ts, ?_, ?_, ?_⟩
  · intro h; simp [ratio, h]
  · intro h; simp [ratio, h]
  · norm_num [ratio, uploadedTotal, downloadedTotal]

/-- Witness for C8 at uploaded 0,100,50 and downloaded 0,200,0. -/
theorem c8_ratio_policy_witness :
    ratio [⟨[], 0, 0, 0⟩, ⟨[], 1, 100, 200⟩, ⟨[], 2, 50, 0⟩] =
      uploadedTotal [⟨[], 0, 0, 0⟩, ⟨[], 1, 100, 200⟩, ⟨[], 2, 50, 0⟩] /
        downloadedTotal [⟨[], 0, 0, 0⟩, ⟨[], 1, 100, 200⟩, ⟨[], 2, 50, 0⟩] ∧
    ratio [⟨[], 0, 0, 0⟩, ⟨[], 1, 100, 200⟩, ⟨[], 2, 50, 0⟩] = 3 / 4 :=
  ⟨(c8_ratio_policy [⟨[], 0, 0, 0⟩, ⟨[], 1, 100, 200⟩, ⟨[], 2, 50, 0⟩]).2.2.2.1
      (by norm_num [downloadedTotal]),
   (c8_ratio_policy []).2.2.2.2⟩

/-- C2: add calls issued while the client is bootstrapping are queued and,
once the client becomes ready, applied in exactly the submission order,
with no reordering and no deduplication (the torrents array ends up as
the previously queued calls followed by the new calls, verbatim). -/
theorem c2_fifo_replay (c : Client2) (rs : List TorrentId)
    (hready : c.ready = false) (hlen : 3 ≤ rs.length) :
    becomeReady (rs.foldl add2 c) =
      ⟨true, [], c.torrents ++ (c.pendingAdds ++ rs)⟩ := by
  obtain ⟨r, p, t⟩ := c
  cases hready
  rw [foldl_add2_notReady]
  simp only [becomeReady]
  exact foldl_add2_ready (p ++ rs) [] t

/-- Witness for C2: three adds (two of them identical) queued while
bootstrapping are replayed in order, undeduplicated, once ready. -/
theorem c2_fifo_replay_witness :
    becomeReady (([TorrentId.parsed ['a'], .other, .parsed ['a']].foldl add2
        ⟨false, [], []⟩)) =
      ⟨true, [], [TorrentId.parsed ['a'], .other, .parsed ['a']]⟩ := by
  have h := c2_fifo_replay ⟨false, [], []⟩ [TorrentId.parsed ['a'], .other, .parsed ['a']]
    rfl (by decide)
  simpa using h

/-- C6: remove on an identifier whose content identifier matches no
registered torrent fails with the not-found error, propagated to the
caller, and leaves the torrents collection exactly as it was. -/
theorem c6_remove_absent (parseT : Bytes → Option JStr) (c : Client1) (id : TorrentId)
    (habs : ∀ t ∈ c.torrents, some t.infoHash ≠ toInfoHash parseT id) :
    remove1 parseT c id = (c, some .notFound) := by
  have hget : get1 parseT c id = none := by
    rw [get1, List.find?_eq_none]
    intro t ht
    simpa using habs t ht
  simp [remove1, hget]

/-- Witness for C6: removing an identifier never added from a one-torrent
client fails with notFound and leaves the client unchanged. -/
theorem c6_remove_absent_witness :
    remove1 (fun _ => none) ⟨[⟨['a'], 0, 0, 0⟩]⟩ (.parsed ['b']) =
      (⟨[⟨['a'], 0, 0, 0⟩]⟩, some .notFound) :=
  c6_remove_absent (fun _ => none) ⟨[⟨['a'], 0, 0, 0⟩]⟩ (.parsed ['b']) (by decide)

/-- C9: add never consults the registry: for an identifier resolving to a
content identifier not yet registered, two consecutive add calls with
that identifier append two entries with equal ContentID at distinct
positions, and get then returns the earliest-added of the two. -/
theorem c9_duplicate_add (parseT : Bytes → Option JStr) (c : Client1) (id : TorrentId)
    (ih : JStr) (g1 g2 : Nat)
    (hres : toInfoHash parseT id = some ih)
    (habs : ∀ t ∈ c.torrents, t.infoHash ≠ ih) :
    ∃ c1 c2, add1 parseT c id g1 = .ok c1 ∧ add1 parseT c1 id g2 = .ok c2 ∧
      c2.torrents = c.torrents ++ [⟨ih, g1, 0, 0⟩, ⟨ih, g2, 0, 0⟩] ∧
      c2.torrents.length = c.torrents.length + 2 ∧
      get1 parseT c2 id = some ⟨ih, g1, 0, 0⟩ := by
  refine ⟨⟨c.torrents ++ [⟨ih, g1, 0, 0⟩]⟩,
         ⟨c.torrents ++ [⟨ih, g1, 0, 0⟩, ⟨ih, g2, 0, 0⟩]⟩, ?_, ?_, rfl, by simp, ?_⟩
  · simp [add1, hres]
  · simp [add1, hres]
  · rw [get1, List.find?_append]
    have h1 : (c.torrents.find? (fun t => some t.infoHash = toInfoHash parseT id)) = none := by
      rw [List.find?_eq_none]
      intro t ht
      simp [hres]
      exact habs t ht
    rw [h1]
    simp [List.find?, hres]

/-- Witness for C9: two adds of the same hex identifier on an empty
client yield two entries with the same ContentID; get returns the first. -/
theorem c9_duplicate_add_witness :
    ∃ c1 c2, add1 (fun _ => none) ⟨[]⟩ (.parsed ['a']) 0 = .ok c1 ∧
      add1 (fun _ => none) c1 (.parsed ['a']) 1 = .ok c2 ∧
      c2.torrents = [⟨['a'], 0, 0, 0⟩, ⟨['a'], 1, 0, 0⟩] ∧
      c2.torrents.length = 0 + 2 ∧
      get1 (fun _ => none) c2 (.parsed ['a']) = some ⟨['a'], 0, 0, 0⟩ := by
  have h := c9_duplicate_add (fun _ => none) ⟨[]⟩ (.parsed ['a']) ['a'] 0 1
    (by decide) (by decide)
  simpa using h

/-- C5: ready is reached only after every bootstrap task has succeeded —
when all tasks succeed the ready event is emitted exactly once, after all
task completions; when any task fails the fatal error event is emitted
and the ready event never occurs. -/
theorem c5_readiness_barrier (E : Type) [DecidableEq E] (tps dhte : Bool)
    (results : List (Option E)) (hlen : results.length = (bootTasks tps dhte).length) :
    ((∀ r ∈ results, r = none) →
       bootTrace results = (results.map fun _ => .taskDone) ++ [.readyEvt] ∧
       bootReadyFlag results = true ∧
       (bootTrace results).count .readyEvt = 1) ∧
    (∀ e, firstErr results = some e →
       bootTrace results = (results.map fun _ => .taskDone) ++ [.errorEvt e] ∧
       bootReadyFlag results = false ∧
       ClientEvent.readyEvt ∉ bootTrace results) ∧
    (firstErr results = none ↔ ∀ r ∈ results, r = none) := by
  have hiff : firstErr results = none ↔ ∀ r ∈ results, r = none := by
    rw [firstErr, List.findSome?_eq_none_iff]
  refine ⟨?_, ?_, hiff⟩
  · intro hall
    have hfe : firstErr results = none := hiff.mpr hall
    refine ⟨by rw [bootTrace, hfe], by rw [bootReadyFlag, hfe], ?_⟩
    rw [bootTrace, hfe, List.count_append]
    have hz : ((results.map fun _ => (.taskDone : ClientEvent E))).count .readyEvt = 0 := by
      rw [List.count_eq_zero]
      intro hmem
      rw [List.mem_map] at hmem
      obtain ⟨r, _, hr⟩ := hmem
      exact ClientEvent.noConfusion hr
    rw [hz]
    rfl
  · intro e hfe
    refine ⟨by rw [bootTrace, hfe], by rw [bootReadyFlag, hfe], ?_⟩
    rw [bootTrace, hfe]
    intro hmem
    rcases List.mem_append.mp hmem with hmem | hmem
    · rw [List.mem_map] at hmem
      obtain ⟨r, _, hr⟩ := hmem
      exact ClientEvent.noConfusion hr
    · exact ClientEvent.noConfusion (List.mem_singleton.mp hmem)

/-- Witness for C5: two all-success port and DHT tasks reach ready once,
after both completions; a first-task failure emits the fatal error and
ready never occurs. -/
theorem c5_readiness_barrier_witness :
    bootTrace ([none, none] : List (Option Nat)) = [.taskDone, .taskDone, .readyEvt] ∧
    bootReadyFlag ([none, none] : List (Option Nat)) = true ∧
    bootTrace [some 3, none] = [.taskDone, .taskDone, .errorEvt 3] ∧
    bootReadyFlag [some 3, none] = false ∧
    ClientEvent.readyEvt ∉ bootTrace [some 3, none] := by
  have h1 := (c5_readiness_barrier Nat false true ([none, none] : List (Option Nat))
    (by decide)).1 (by decide)
  have h2 := (c5_readiness_barrier Nat false true [some 3, none] (by decide)).2.1 3 rfl
  exact ⟨by simpa using h1.1, h1.2.1, by simpa using h2.1, h2.2.1, h2.2.2⟩

/-- A client with 3 registered torrents and an owned DHT, for examining
the part_002 destroy path. -/
def c3cex : Client0 :=
  ⟨[⟨['a'], 0, 0, 0⟩, ⟨['b'], 1, 0, 0⟩, ⟨['c'], 2, 0, 0⟩], true⟩

/-- C3 counterexample: in the part_002 revision, destroy on a client with
3 torrents and an owned DHT hands only 3 tasks to the task group — not
N + 1 = 4 — because the DHT is destroyed synchronously outside the group,
its completion never awaited by the aggregate callback. -/
theorem c3_destroy_counterexample :
    c3cex.dht = true ∧ c3cex.torrents.length = 3 ∧
    (destroy2 c3cex).syncDhtDestroy = true ∧
    ¬ (destroy2 c3cex).tasks.length = c3cex.torrents.length + 1 := by decide

/-- C3 amended: in the part_000 revision, destroy hands exactly N + 1
teardown tasks to the task group (N torrent removals plus the owned-DHT
destroy); the group join lets every task run to completion, fires the
aggregate callback exactly once, after the last completion, and reports
the first error encountered.  In the part_002 revision the DHT is instead
destroyed synchronously outside the group and only the N torrent removal
tasks are joined. -/
theorem c3_destroy_amended (E : Type) (c0 cN : Client0) (order : List (Option E))
    (hdht : c0.dht = true) :
    (destroyTasks0 c0).length = c0.torrents.length + 1 ∧
    (joinTrace order).length = order.length + 1 ∧
    (joinTrace order).getLast? = some (.aggregate (firstErr order)) ∧
    (∀ o ∈ order, JoinEvent.taskDone o ∈ joinTrace order) ∧
    (∀ pre (e : E) post, (∀ x ∈ pre, x = none) →
        firstErr (pre ++ some e :: post) = some e) ∧
    (destroy2 cN).tasks.length = cN.torrents.length ∧
    (destroy2 cN).syncDhtDestroy = cN.dht := by
  refine ⟨?_, ?_, ?_, ?_, ?_, ?_, rfl⟩
  · simp [destroyTasks0, hdht]
  · simp [joinTrace]
  · simp [joinTrace]
  · intro o ho
    rw [joinTrace, List.mem_append]
    exact Or.inl (List.mem_map_of_mem _ ho)
  · intro pre e post hpre
    induction pre with
    | nil => simp [firstErr]
    | cons x pre ih =>
        have hx : x = none := hpre x (by simp)
        subst hx
        simpa [firstErr] using ih (fun y hy => hpre y (by simp [hy]))
  · simp [destroy2]

/-- Witness for C3 amended: a part_000 client with 3 torrents and an
owned DHT yields 4 tasks, and a failing completion order of the 4 tasks
reports its error in the aggregate, after all 4 completions. -/
theorem c3_destroy_amended_witness :
    (destroyTasks0 c3cex).length = c3cex.torrents.length + 1 ∧
    (joinTrace [none, some 5, none, none]).length = 4 + 1 ∧
    (joinTrace [none, some 5, none, none]).getLast? =
      some (.aggregate (firstErr [none, some 5, none, none])) ∧
    firstErr ([none] ++ some 5 :: [none, none]) = some 5 := by
  have h := c3_destroy_amended Nat c3cex c3cex [none, some 5, none, none] rfl
  exact ⟨h.1, h.2.1, h.2.2.1, h.2.2.2.2.1 [none] 5 [none, none] (by decide)⟩

/-- C4: a PeerDiscovery built around an externally supplied DHT handle
marks it external and never invokes destroy on it, during construction or
stop; one that constructed its own DHT invokes destroy on it exactly
once, during stop. -/
theorem c4_dht_ownership (o : PDOpts) (s : PD) (hinit : (pdInit o).2 = .ok s) :
    (o.dht = .extHandle →
       s.externalDHT = true ∧ s.dhtDestroyCalls = 0 ∧
       ∃ s2, pdStop (setTorrentTracker s) = some s2 ∧ s2.dhtDestroyCalls = 0) ∧
    (o.dht = .nullish →
       s.dht = .ownHandle ∧ s.externalDHT = false ∧ s.dhtDestroyCalls = 0 ∧
       ∃ s2, pdStop (setTorrentTracker s) = some s2 ∧ s2.dhtDestroyCalls = 1) := by
  obtain ⟨pid, dht, tr⟩ := o
  by_cases hp : peerIdTruthy pid = true
  · constructor
    · rintro rfl
      simp only [pdInit, hp, not_true, if_false, Bool.not_eq_true] at hinit
      simp only [createDHT, reduceCtorEq, if_false, dhtTruthy] at hinit
      simp only [ite_true, Except.ok.injEq] at hinit
      subst hinit
      cases tr <;> simp [setTorrentTracker, createTracker, pdStop, dhtTruthy]
    · rintro rfl
      simp only [pdInit, hp, not_true, if_false, Bool.not_eq_true] at hinit
      simp only [createDHT, reduceCtorEq, if_false, dhtTruthy] at hinit
      simp only [ite_false, Except.ok.injEq] at hinit
      subst hinit
      cases tr <;> simp [setTorrentTracker, createTracker, pdStop, dhtTruthy]
  · exfalso
    simp [pdInit, hp] at hinit

/-- Witness for C4: with an external handle the destroy count stays 0
through stop; with a self-constructed DHT it is 0 after construction and
1 after stop. -/
theorem c4_dht_ownership_witness :
    ((⟨.extHandle, true, .tru, 1, 0, 0⟩ : PD).dhtDestroyCalls = 0 ∧
      ∃ s2, pdStop (setTorrentTracker ⟨.extHandle, true, .tru, 1, 0, 0⟩) = some s2 ∧
        s2.dhtDestroyCalls = 0) ∧
    ((⟨.ownHandle, false, .tru, 1, 0, 0⟩ : PD).dhtDestroyCalls = 0 ∧
      ∃ s2, pdStop (setTorrentTracker ⟨.ownHandle, false, .tru, 1, 0, 0⟩) = some s2 ∧
        s2.dhtDestroyCalls = 1) :=
  have h1 := (c4_dht_ownership ⟨some (.buf [1]), .extHandle, .tru⟩
    ⟨.extHandle, true, .tru, 1, 0, 0⟩ (by decide)).1 rfl
  have h2 := (c4_dht_ownership ⟨some (.buf [1]), .nullish, .tru⟩
    ⟨.ownHandle, false, .tru, 1, 0, 0⟩ (by decide)).2 rfl
  ⟨⟨h1.2.1, h1.2.2⟩, ⟨h2.2.2.1, h2.2.2.2⟩⟩

/-- C7: with the DHT and tracker listeners attached, every tracker error
is emitted as a non-fatal warning in place, later DHT-sourced peer events
are still forwarded unchanged, and no source event ever produces a fatal
client error. -/
theorem c7_tracker_error_downgrade (w : PDWiring) (xs ys zs : List SrcEvent)
    (e : Nat) (a : JStr)
    (hd : w.dhtAttached = true) (ht : w.trackerAttached = true) :
    emittedEvents w (xs ++ .trackerErr e :: ys ++ .dhtPeer a :: zs) =
      emittedEvents w xs ++ .warning e ::
        (emittedEvents w ys ++ .peer a :: emittedEvents w zs) ∧
    (∀ es f, OutEvent.fatal f ∉ emittedEvents w es) := by
  constructor
  · simp [emittedEvents, dispatch, hd, ht]
  · intro es f hmem
    rw [emittedEvents, List.mem_flatten] at hmem
    obtain ⟨l, hl, hfl⟩ := hmem
    rw [List.mem_map] at hl
    obtain ⟨ev, _, rfl⟩ := hl
    cases ev <;> simp [dispatch] at hfl

/-- Witness for C7: a tracker error followed by a DHT peer yields a
warning then the forwarded peer, and no fatal error. -/
theorem c7_tracker_error_downgrade_witness :
    emittedEvents ⟨true, true⟩ [.trackerErr 7, .dhtPeer ['x']] =
      [.warning 7, .peer ['x']] ∧
    OutEvent.fatal 7 ∉ emittedEvents ⟨true, true⟩ [.trackerErr 7, .dhtPeer ['x']] := by
  have h := c7_tracker_error_downgrade ⟨true, true⟩ [] [] [] 7 ['x'] rfl rfl
  exact ⟨by simpa using h.1, h.2 [.trackerErr 7, .dhtPeer ['x']] 7⟩

/-- C10 counterexample: an options object that does supply a peerId — the
empty string, a falsy value — still makes the PeerDiscovery constructor
throw the peerId-required error, contradicting the claim that every
options object supplying a peerId passes that check. -/
theorem c10_falsy_peerid_counterexample :
    (PDOpts.mk (some (.str [])) .extHandle .tru).peerId.isSome = true ∧
    pdInit ⟨some (.str []), .extHandle, .tru⟩ = ([], .error .peerIdRequired) := by
  decide

/-- C10 amended: an options object whose peerId is falsy (absent, or
supplied as an empty string) makes construction throw the peerId-required
error synchronously, before any DHT or tracker resource is created; an
options object whose peerId is truthy (a non-empty string, or a Buffer)
does not throw on that check. -/
theorem c10_peerid_check (o : PDOpts) :
    (peerIdTruthy o.peerId = false → pdInit o = ([], .error .peerIdRequired)) ∧
    (peerIdTruthy o.peerId = true → (pdInit o).2 ≠ .error .peerIdRequired) := by
  constructor
  · intro h
    simp [pdInit, h]
  · intro h
    simp only [pdInit, h, not_true, if_false, Bool.not_eq_true]
    split <;> simp

/-- Witness for C10 amended: an absent peerId throws before any resource
exists; an empty Buffer peerId (truthy) passes the check. -/
theorem c10_peerid_check_witness :
    pdInit ⟨none, .fls, .fls⟩ = ([], .error .peerIdRequired) ∧
    (pdInit ⟨some (.buf []), .fls, .fls⟩).2 ≠ .error .peerIdRequired :=
  ⟨(c10_peerid_check ⟨none, .fls, .fls⟩).1 rfl,
   (c10_peerid_check ⟨some (.buf []), .fls, .fls⟩).2 rfl⟩

section ResolverLemmas

lemma hexChars_isHexDig : ∀ c ∈ hexChars, isHexDig c = true := by decide

lemma hexChars_toLower : ∀ c ∈ hexChars, Char.toLower c = c := by decide

lemma isHexDig_ne_amp (c : Char) (h : isHexDig c = true) : c ≠ '&' := by
  intro heq
  subst heq
  exact absurd h (by decide)

lemma nibbleChar_mem (n : Nat) : nibbleChar n ∈ hexChars := by
  have hlt : n % 16 < hexChars.length := Nat.mod_lt _ (by decide)
  rw [nibbleChar, List.getD_eq_getElem _ _ hlt]
  exact List.getElem_mem hlt

lemma mem_bytesToHex {bs : Bytes} {c : Char} (h : c ∈ bytesToHex bs) : c ∈ hexChars := by
  rw [bytesToHex, List.mem_flatten] at h
  obtain ⟨l, hl, hc⟩ := h
  rw [List.mem_map] at hl
  obtain ⟨b, _, rfl⟩ := hl
  simp only [byteToHexChars, List.mem_cons, List.not_mem_nil, or_false] at hc
  rcases hc with rfl | rfl
  · exact nibbleChar_mem _
  · exact nibbleChar_mem _

lemma bytesToHex_length (bs : Bytes) : (bytesToHex bs).length = 2 * bs.length := by
  induction bs with
  | nil => rfl
  | cons b bs ih =>
      have h2 : (byteToHexChars b).length = 2 := rfl
      rw [bytesToHex, List.map_cons, List.flatten_cons, List.length_append, h2,
        ← bytesToHex, ih, List.length_cons]
      ring

lemma magnet_btih_hex (rest : JStr) (h40 : rest.length = 40)
    (hdig : ∀ c ∈ rest, isHexDig c = true) :
    magnetInfoHash (btihHead ++ rest) = some (rest.map Char.toLower) := by
  have hpre : btihHead.isPrefixOf (btihHead ++ rest) = true := by
    rw [List.isPrefixOf_iff_prefix]
    exact List.prefix_append _ _
  have hdrop : (btihHead ++ rest).drop btihHead.length = rest := List.drop_left _ _
  have htake : rest.takeWhile (fun c => c ≠ '&') = rest := by
    rw [List.takeWhile_eq_self_iff]
    intro x hx
    simpa using isHexDig_ne_amp x (hdig x hx)
  have hall : rest.all isHexDig = true := List.all_eq_true.mpr hdig
  simp only [magnetInfoHash, hpre, if_true, hdrop, htake, h40, hall, and_self, ite_true]

lemma hex_not_magnet (s : JStr) (hdig : ∀ c ∈ s, isHexDig c = true) :
    ¬ magnetScheme.isPrefixOf s := by
  intro h
  rw [List.isPrefixOf_iff_prefix] at h
  obtain ⟨t, ht⟩ := h
  have hmem : 'm' ∈ s := by
    rw [← ht]
    exact List.mem_append.mpr (Or.inl (by decide))
  exact absurd (hdig 'm' hmem) (by decide)

lemma toLower_fix (s : JStr) (h : ∀ c ∈ s, c ∈ hexChars) :
    s.map Char.toLower = s := by
  rw [List.map_congr_left (fun c hc => hexChars_toLower c (h c hc))]
  exact List.map_id s

end ResolverLemmas

/-- C1: the five supported representations of one torrent — its hex
string (any letter case), its raw 20-byte buffer, its magnet URI, its
raw metadata bytes, its pre-parsed descriptor — are all resolved by
Client.toInfoHash to the identical canonical content identifier, the
40-character lowercase hex encoding of the 20-byte hash. -/
theorem c1_resolver_canonical (parseT : Bytes → Option JStr) (h meta : Bytes)
    (hexStr : JStr)
    (hh : h.length = 20)
    (hlow : hexStr.map Char.toLower = bytesToHex h)
    (h40 : hexStr.length = 40)
    (hdig : ∀ c ∈ hexStr, isHexDig c = true)
    (hmeta : ¬ meta.length = 20)
    (hparse : parseT meta = some (bytesToHex h)) :
    (bytesToHex h).length = 40 ∧
    (∀ c ∈ bytesToHex h, c ∈ hexChars) ∧
    toInfoHash parseT (.str hexStr) = some (bytesToHex h) ∧
    toInfoHash parseT (.buf h) = some (bytesToHex h) ∧
    toInfoHash parseT (.str (btihHead ++ bytesToHex h)) = some (bytesToHex h) ∧
    toInfoHash parseT (.buf meta) = some (bytesToHex h) ∧
    toInfoHash parseT (.parsed (bytesToHex h)) = some (bytesToHex h) := by
  have hclen : (bytesToHex h).length = 40 := by rw [bytesToHex_length, hh]
  have hcmem : ∀ c ∈ bytesToHex h, c ∈ hexChars := fun c hc => mem_bytesToHex hc
  have hcdig : ∀ c ∈ bytesToHex h, isHexDig c = true :=
    fun c hc => hexChars_isHexDig c (hcmem c hc)
  refine ⟨hclen, hcmem, ?_, ?_, ?_, ?_, ?_⟩
  · rw [toInfoHash]
    rw [if_pos (Or.inl ⟨hex_not_magnet hexStr hdig, h40⟩)]
    rw [magnet_btih_hex hexStr h40 hdig, hlow]
  · rw [toInfoHash, if_pos hh]
  · rw [toInfoHash]
    have hpre : magnetScheme.isPrefixOf (btihHead ++ bytesToHex h) = true := by
      rw [List.isPrefixOf_iff_prefix]
      exact List.IsPrefix.trans (by decide) (List.prefix_append _ _)
    have hlen : (btihHead ++ bytesToHex h).length = 60 := by
      rw [List.length_append, hclen]
      rfl
    rw [if_neg ?hc]
    case hc =>
      rintro (⟨hnp, _⟩ | h32)
      · exact hnp hpre
      · rw [hlen] at h32
        exact absurd h32 (by decide)
    rw [magnet_btih_hex (bytesToHex h) hclen hcdig, toLower_fix _ hcmem]
  · rw [toInfoHash, if_neg hmeta, hparse]
  · rw [toInfoHash, if_neg ?hne]
    case hne =>
      intro hnil
      rw [hnil] at hclen
      exact absurd hclen (by decide)

/-- A concrete 20-byte hash for exercising the resolver. -/
def c1hash : Bytes := List.replicate 10 171 ++ List.replicate 10 205

/-- A parse-torrent stub decoding one concrete metadata buffer to the
concrete hash. -/
def c1parse : Bytes → Option JStr :=
  fun b => if b = [1, 2, 3] then some (bytesToHex c1hash) else none

/-- Witness for C1: the five concrete representations of the hash
ab..cd all resolve to its lowercase hex encoding. -/
theorem c1_resolver_canonical_witness :
    toInfoHash c1parse (.str (bytesToHex c1hash)) = some (bytesToHex c1hash) ∧
    toInfoHash c1parse (.buf c1hash) = some (bytesToHex c1hash) ∧
    toInfoHash c1parse (.str (btihHead ++ bytesToHex c1hash)) = some (bytesToHex c1hash) ∧
    toInfoHash c1parse (.buf [1, 2, 3]) = some (bytesToHex c1hash) ∧
    toInfoHash c1parse (.parsed (bytesToHex c1hash)) = some (bytesToHex c1hash) :=
  (c1_resolver_canonical c1parse c1hash [1, 2, 3] (bytesToHex c1hash)
    (by decide) (by decide) (by decide) (by decide) (by decide) (by decide)).2.2
